import Mathlib

set_option autoImplicit false

/-!
Verification development for a JMAP (Fastmail) mail client and its
MCP tool layer.  The definitions below are a shallow embedding of the
TypeScript sources:

  * `src/jmap/client.ts`  — the protocol client (`JMAPClient`): session
    cache, batched `request`, single-call `call`;
  * `src/jmap/methods.ts` — the operation layer: mailbox resolution,
    search, move, send, reply building;
  * `src/index.ts`        — the tool handlers with the preview/confirm
    gate (`send_email`, `reply_to_email`).

Modelling conventions:

  * JavaScript values that travel inside request bodies are modelled by
    the inductive `JVal`; JS objects are association lists in insertion
    order, and JS truthiness is modelled explicitly (`jTruthy`,
    `optTruthy`, `intTruthy`).
  * Effects are modelled by the state monad `Op`: the state
    (`ClientState`) carries the session cache exactly as the source
    does, plus ghost instrumentation (the ordered trace of issued
    method calls, the number of session fetches and of POSTs) that the
    theorems observe.
  * The network is a `World` of oracles: `HttpWorld` gives the raw
    transport responses consumed by `JMAPClient`; the typed fields of
    `World` (`mailboxList`, `emailStore`, `identityList`, `queryIds`)
    give the value that the source's unchecked TypeScript cast of a
    (transport-successful) read response yields.  Read helpers record
    their method call with `issueCall`; `sendEmail` goes through the
    full modelled `JMAPClient.request`, since its claims depend on the
    response demultiplexing.
  * Thrown `Error(msg)` values are modelled as `String` errors carrying
    the same message text; template-literal rendering of non-string
    values is approximated by `tmplStr` (only strings occur in the
    claims).  `console.error` logging is outside the model.
-/

/-! ## JavaScript value model -/

/-- A JSON/JavaScript value as it appears in JMAP request and response
bodies.  Objects are association lists in insertion order. -/
inductive JVal where
  | str : String → JVal
  | num : Int → JVal
  | bool : Bool → JVal
  | null : JVal
  | arr : List JVal → JVal
  | obj : List (String × JVal) → JVal

/-- Property access on a JS object modelled as an association list:
the first binding for the key, if any. -/
def rlookup {α : Type} (m : List (String × α)) (k : String) : Option α :=
  (m.find? (fun kv => kv.1 == k)).map (fun kv => kv.2)

/-- Models `v[k]` on a `JVal`: `none` stands for `undefined`. -/
def jGet (v : JVal) (k : String) : Option JVal :=
  match v with
  | .obj fields => rlookup fields k
  | _ => none

/-- Models `v[k1]?.[k2]` (optional chaining through two keys). -/
def jGet2 (v : JVal) (k1 k2 : String) : Option JVal :=
  (jGet v k1).bind (fun w => jGet w k2)

/-- JavaScript truthiness of a possibly-`undefined` value:
`undefined`, `null`, `false`, `0` and `""` are falsy. -/
def jTruthy : Option JVal → Bool
  | none => false
  | some .null => false
  | some (.bool b) => b
  | some (.str s) => !(s == "")
  | some (.num n) => !(n == 0)
  | some (.arr _) => true
  | some (.obj _) => true

/-- Rendering of a possibly-`undefined` value inside a JS template
literal.  Composite values are approximated (only strings are rendered
by the code paths the claims exercise). -/
def tmplStr : Option JVal → String
  | some (.str s) => s
  | some (.num n) => toString n
  | some (.bool b) => if b then "true" else "false"
  | some .null => "null"
  | some (.arr _) => ""
  | some (.obj _) => "[object Object]"
  | none => "undefined"

/-- Models `x ? x : undefined` for an optional string: an empty string
is falsy in JavaScript. -/
def optTruthy : Option String → Option String
  | some "" => none
  | x => x

/-- Models truthiness for an optional number: `0` is falsy. -/
def intTruthy : Option Int → Option Int
  | some 0 => none
  | x => x

/-- Models JavaScript `toLowerCase()`, computed over the character
list so that the kernel can evaluate concrete instances. -/
def strToLower (s : String) : String := ⟨s.data.map Char.toLower⟩

/-- Models JavaScript `startsWith(p)`. -/
def strStartsWith (s p : String) : Bool := p.data.isPrefixOf s.data

/-- Models JavaScript `includes(c)` for a single character. -/
def strContains (s : String) (c : Char) : Bool := s.data.contains c

/-- Models JavaScript `trim()`. -/
def strTrim (s : String) : String :=
  ⟨((s.data.dropWhile Char.isWhitespace).reverse.dropWhile Char.isWhitespace).reverse⟩

/-- Splitting a character list at every occurrence of a separator
(JavaScript `split`, which yields `[""]` on the empty string and keeps
empty fragments). -/
def splitOnCharAux (c : Char) : List Char → List (List Char)
  | [] => [[]]
  | ch :: rest =>
    if ch = c then [] :: splitOnCharAux c rest
    else match splitOnCharAux c rest with
      | h :: t => (ch :: h) :: t
      | [] => [[ch]]

/-- Models JavaScript `split(sep)` for a one-character separator. -/
def strSplitOn (s : String) (sep : Char) : List String :=
  (splitOnCharAux sep s.data).map (fun l => ⟨l⟩)

/-- Models the template fragment
`err.type + (err.description ? " - " + err.description : "")`
used by every remote-error message in the source. -/
def remoteErrText (err : JVal) : String :=
  tmplStr (jGet err "type") ++
    (if jTruthy (jGet err "description") then " - " ++ tmplStr (jGet err "description") else "")

/-- Message of the `ProtocolError` thrown by `JMAPClient.request` when a
batch response entry is named `"error"` (client.ts line 882). -/
def jmapErrorMessage (data : JVal) : String :=
  "JMAP error: " ++ remoteErrText data

/-! ## Data model (types.ts) -/

/-- EmailAddress (types.ts): `name` is `string | null`. -/
structure EmailAddress where
  name : Option String
  email : String
deriving Repr, DecidableEq

/-- MailboxRights (types.ts). -/
structure MailboxRights where
  mayReadItems : Bool := true
  mayAddItems : Bool := true
  mayRemoveItems : Bool := true
  maySetSeen : Bool := true
  maySetKeywords : Bool := true
  mayCreateChild : Bool := true
  mayRename : Bool := true
  mayDelete : Bool := true
  maySubmit : Bool := true
deriving Repr, DecidableEq

/-- Mailbox (types.ts); `role` is one of the fixed role strings or
`null`, modelled as `Option String`. -/
structure Mailbox where
  id : String
  name : String
  parentId : Option String := none
  role : Option String := none
  sortOrder : Nat := 0
  totalEmails : Nat := 0
  unreadEmails : Nat := 0
  totalThreads : Nat := 0
  unreadThreads : Nat := 0
  myRights : MailboxRights := {}
  isSubscribed : Bool := true
deriving Repr, DecidableEq

/-- Email (types.ts), restricted to the fields the modelled operations
read.  `mailboxIds` and `keywords` are JS records modelled as
association lists; `bodyValues` maps a part id to its value string
(the `EmailBodyValue.value` field, the only one the modelled code
reads). -/
structure Email where
  id : String
  blobId : String := ""
  threadId : String := ""
  mailboxIds : List (String × Bool) := []
  keywords : List (String × Bool) := []
  size : Nat := 0
  receivedAt : String := ""
  messageId : Option (List String) := none
  inReplyTo : Option (List String) := none
  references : Option (List String) := none
  from_ : Option (List EmailAddress) := none
  to_ : Option (List EmailAddress) := none
  cc : Option (List EmailAddress) := none
  bcc : Option (List EmailAddress) := none
  replyTo : Option (List EmailAddress) := none
  subject : Option String := none
  sentAt : Option String := none
  hasAttachment : Bool := false
  preview : String := ""
deriving Repr, DecidableEq

/-- Identity (types.ts), restricted to the fields `sendEmail` reads. -/
structure Identity where
  id : String
  name : String := ""
  email : String := ""
deriving Repr, DecidableEq

/-- JMAPAccount (types.ts). -/
structure JMAPAccount where
  name : String := ""
  isPersonal : Bool := true
  isReadOnly : Bool := false
deriving Repr, DecidableEq

/-- JMAPSession (types.ts). -/
structure JMAPSession where
  accounts : List (String × JMAPAccount) := []
  primaryAccounts : List (String × String) := []
  username : String := ""
  apiUrl : String := ""
  downloadUrl : String := ""
  uploadUrl : String := ""
  eventSourceUrl : String := ""
  state : String := ""
deriving Repr, DecidableEq

/-- SendEmailParams (methods.ts). -/
structure SendEmailParams where
  to_ : List EmailAddress
  subject : String
  textBody : String
  htmlBody : Option String := none
  cc : Option (List EmailAddress) := none
  bcc : Option (List EmailAddress) := none
  inReplyTo : Option String := none
  references : Option (List String) := none
deriving Repr, DecidableEq

/-- The email-creation object `sendEmail` builds (methods.ts lines
422-443): exactly the fields that object literal sets.  `bodyValues`
maps a part id to a value string; `textBody` is a list of
(partId, type) pairs. -/
structure EmailCreate where
  mailboxIds : List (String × Bool)
  keywords : List (String × Bool) := []
  from_ : Option (List EmailAddress) := none
  to_ : Option (List EmailAddress) := none
  cc : Option (List EmailAddress) := none
  bcc : Option (List EmailAddress) := none
  subject : Option String := none
  bodyValues : List (String × String) := []
  textBody : List (String × String) := []
  inReplyTo : Option (List String) := none
  references : Option (List String) := none
deriving Repr, DecidableEq

/-- SearchFilter (methods.ts lines 159-175). -/
structure SearchFilter where
  query : Option String := none
  from_ : Option String := none
  to_ : Option String := none
  cc : Option String := none
  bcc : Option String := none
  subject : Option String := none
  body : Option String := none
  mailbox : Option String := none
  hasAttachment : Option Bool := none
  minSize : Option Int := none
  maxSize : Option Int := none
  before : Option String := none
  after : Option String := none
  unread : Option Bool := none
  flagged : Option Bool := none

/-- `searchEmails` accepts a bare string or a structured filter. -/
inductive SearchArg where
  | str : String → SearchArg
  | filt : SearchFilter → SearchArg

/-- JMAPMethodCall (types.ts): `[name, args, callId]`. -/
structure Call where
  name : String
  args : JVal
  callId : String

/-- JMAPMethodResponse (types.ts): `[name, data, callId]`. -/
structure MethodResponse where
  name : String
  data : JVal
  callId : String

/-! ## Client state and the operation monad -/

/-- The mutable state of a `JMAPClient` instance. `session` is the
real cached field; `fetchCount` (session endpoint fetches),
`postCount` (batch POSTs, indexing the transport oracle) and `trace`
(every method call sent, in order) are ghost instrumentation. -/
structure ClientState where
  session : Option JMAPSession := none
  fetchCount : Nat := 0
  postCount : Nat := 0
  trace : List Call := []

/-- State produced by `new JMAPClient(token)`: no cached session. -/
def freshClient : ClientState :=
  { session := none, fetchCount := 0, postCount := 0, trace := [] }

/-- Outcome of an operation: a result or a thrown error message, in
both cases with the client state at that point (so the trace of calls
made before a throw stays observable). -/
inductive OpResult (α : Type) where
  | ok : α → ClientState → OpResult α
  | error : String → ClientState → OpResult α

/-- The operation monad: explicit state passing with thrown errors. -/
def Op (α : Type) : Type := ClientState → OpResult α

instance : Monad Op where
  pure a := fun st => .ok a st
  bind x f := fun st =>
    match x st with
    | .ok a st' => f a st'
    | .error e st' => .error e st'

/-- Models `throw new Error(msg)`. -/
def Op.throw {α : Type} (msg : String) : Op α := fun st => .error msg st

/-- The client state in which an operation ended, whether it returned
or threw. -/
def stateOf {α : Type} : OpResult α → ClientState
  | .ok _ st => st
  | .error _ st => st

/-- The returned value, if the operation did not throw. -/
def resultOf {α : Type} : OpResult α → Option α
  | .ok a _ => some a
  | .error _ _ => none

/-- The thrown message, if the operation threw. -/
def errorOf {α : Type} : OpResult α → Option String
  | .ok _ _ => none
  | .error e _ => some e

/-- The write (mutating) method calls of a trace: the `Email/set` and
`EmailSubmission/set` requests. -/
def writeCalls (tr : List Call) : List Call :=
  tr.filter (fun c => c.name == "Email/set" || c.name == "EmailSubmission/set")

/-! ## Transport worlds -/

/-- Raw transport oracle consumed by `JMAPClient`: the well-known
session endpoint answer, and for the n-th batch POST of the process the
`methodResponses` array of the reply.  `Except.error (status, text)`
stands for a non-2xx HTTP response. -/
structure HttpWorld where
  sessionResponse : Except (Nat × String) JMAPSession
  batchResponse : Nat → Except (Nat × String) (List MethodResponse)

/-- World for the methods layer.  The typed fields give the value that
the source's unchecked cast of a transport-successful read response
yields: `mailboxList` for `Mailbox/get` `.list`, `emailStore` for the
emails an `Email/get` can return (filtered by the requested ids),
`identityList` for `Identity/get` `.list`, `queryIds` for the ids an
`Email/query` returns. -/
structure World where
  http : HttpWorld
  mailboxList : List Mailbox := []
  emailStore : List Email := []
  identityList : List Identity := []
  queryIds : List String := []

/-! ## JMAPClient (client.ts) -/

/-- `JMAPClient.getSession` (client.ts lines 821-839): return the
cached session, else fetch it from the well-known endpoint, throwing on
a non-2xx status, and cache it. -/
def JMAPClient.getSession (w : HttpWorld) : Op JMAPSession := fun st =>
  match st.session with
  | some s => .ok s st
  | none =>
    match w.sessionResponse with
    | .error (status, text) =>
        .error ("Failed to get JMAP session: " ++ toString status ++ " " ++ text) st
    | .ok s =>
        .ok s { st with session := some s, fetchCount := st.fetchCount + 1 }

/-- `JMAPClient.getAccountId` (client.ts lines 841-848). -/
def JMAPClient.getAccountId (w : HttpWorld) : Op String := do
  let session ← JMAPClient.getSession w
  match rlookup session.primaryAccounts "urn:ietf:params:jmap:mail" with
  | none => Op.throw "No mail account found in session"
  | some accountId => pure accountId

/-- `JMAPClient.request` (client.ts lines 850-889): ensure a session,
POST the batch (recorded in the trace), throw on a non-2xx status, then
scan the `methodResponses` for an entry named `"error"` — the first
such entry aborts the whole batch with a `JMAP error:` message carrying
the remote type and description; otherwise the full ordered array is
returned. -/
def JMAPClient.request (w : HttpWorld) (methodCalls : List Call) : Op (List MethodResponse) := fun st =>
  match JMAPClient.getSession w st with
  | .error e st' => .error e st'
  | .ok _session st' =>
    let idx := st'.postCount
    let st'' := { st' with postCount := idx + 1, trace := st'.trace ++ methodCalls }
    match w.batchResponse idx with
    | .error (status, text) =>
        .error ("JMAP request failed: " ++ toString status ++ " " ++ text) st''
    | .ok result =>
      match result.find? (fun r => r.name == "error") with
      | some r => .error (jmapErrorMessage r.data) st''
      | none => .ok result st''

/-- `JMAPClient.call` (client.ts lines 892-904): single-call batch;
throws when the response array has no entry for the call. -/
def JMAPClient.call (w : HttpWorld) (method : String) (args : JVal) (callId : String) : Op JVal := do
  let responses ← JMAPClient.request w [⟨method, args, callId⟩]
  match responses.head? with
  | none => Op.throw ("No response for method " ++ method)
  | some response => pure response.data

/-! ## JVal encoders for request bodies -/

/-- Encodes an address object literal `{name, email}`. -/
def jvalOfAddress (a : EmailAddress) : JVal :=
  .obj [("name", match a.name with | some n => .str n | none => .null),
        ("email", .str a.email)]

/-- Encodes an address array. -/
def jvalOfAddressList (l : List EmailAddress) : JVal :=
  .arr (l.map jvalOfAddress)

/-- Encodes a `Record<string, boolean>`. -/
def jvalOfBoolMap (m : List (String × Bool)) : JVal :=
  .obj (m.map (fun kv => (kv.1, JVal.bool kv.2)))

/-- Encodes a string array. -/
def jvalOfStrList (l : List String) : JVal :=
  .arr (l.map JVal.str)

/-- JSON encoding of the email-creation object, with `undefined`
fields dropped as `JSON.stringify` does, in the key order of the
object literal in `sendEmail`. -/
def jvalOfEmailCreate (e : EmailCreate) : JVal :=
  .obj ([("mailboxIds", jvalOfBoolMap e.mailboxIds),
         ("keywords", jvalOfBoolMap e.keywords)]
    ++ (match e.from_ with | some l => [("from", jvalOfAddressList l)] | none => [])
    ++ (match e.to_ with | some l => [("to", jvalOfAddressList l)] | none => [])
    ++ (match e.cc with | some l => [("cc", jvalOfAddressList l)] | none => [])
    ++ (match e.bcc with | some l => [("bcc", jvalOfAddressList l)] | none => [])
    ++ (match e.subject with | some s => [("subject", JVal.str s)] | none => [])
    ++ [("bodyValues", .obj (e.bodyValues.map (fun kv => (kv.1, JVal.obj [("value", JVal.str kv.2)])))),
        ("textBody", .arr (e.textBody.map (fun pt => JVal.obj [("partId", JVal.str pt.1), ("type", JVal.str pt.2)])))]
    ++ (match e.inReplyTo with | some l => [("inReplyTo", jvalOfStrList l)] | none => [])
    ++ (match e.references with | some l => [("references", jvalOfStrList l)] | none => []))

/-! ## Methods layer (methods.ts) -/

/-- EMAIL_LIST_PROPERTIES (methods.ts lines 12-24). -/
def EMAIL_LIST_PROPERTIES : List String :=
  ["id", "threadId", "mailboxIds", "keywords", "from", "to", "subject",
   "receivedAt", "preview", "hasAttachment", "size"]

/-- EMAIL_FULL_PROPERTIES (methods.ts lines 27-40). -/
def EMAIL_FULL_PROPERTIES : List String :=
  EMAIL_LIST_PROPERTIES ++
  ["cc", "bcc", "replyTo", "sentAt", "messageId", "inReplyTo", "references",
   "bodyValues", "textBody", "htmlBody", "attachments"]

/-- Records a method call issued through a transport-successful
`client.call` whose response value is supplied by the typed `World`
oracles at the use site.  (Every method first runs `getAccountId`,
which caches the session, so the `getSession` inside the real
`client.call` is a no-op by then.) -/
def issueCall (c : Call) : Op Unit := fun st =>
  .ok () { st with trace := st.trace ++ [c], postCount := st.postCount + 1 }

/-- The `Mailbox/get` call `listMailboxes` issues. -/
def mailboxGetCall (accountId : String) : Call :=
  ⟨"Mailbox/get", .obj [("accountId", .str accountId)], "0"⟩

/-- `listMailboxes` (methods.ts lines 44-53). -/
def listMailboxes (w : World) : Op (List Mailbox) := do
  let accountId ← JMAPClient.getAccountId w.http
  issueCall (mailboxGetCall accountId)
  pure w.mailboxList

/-- The pure resolution chain of `getMailboxByName` (methods.ts lines
57-65): exact name match, else role match against the lower-cased
input, else case-insensitive name match, else `null`. -/
def resolveMailbox (mailboxes : List Mailbox) (name : String) : Option Mailbox :=
  let lowerName := strToLower name
  ((mailboxes.find? (fun m => m.name == name)).orElse (fun _ =>
    (mailboxes.find? (fun m => m.role == some lowerName)).orElse (fun _ =>
      mailboxes.find? (fun m => strToLower m.name == lowerName))))

/-- `getMailboxByName` (methods.ts lines 55-66): fetch the full
listing, then apply the precedence chain. -/
def getMailboxByName (w : World) (name : String) : Op (Option Mailbox) := do
  let mailboxes ← listMailboxes w
  pure (resolveMailbox mailboxes name)

/-- The `Email/get` call `getEmail` issues (methods.ts lines 113-120). -/
def emailGetFullCall (accountId emailId : String) : Call :=
  ⟨"Email/get", .obj [("accountId", .str accountId),
    ("ids", .arr [.str emailId]),
    ("properties", jvalOfStrList EMAIL_FULL_PROPERTIES),
    ("fetchTextBodyValues", .bool true),
    ("fetchHTMLBodyValues", .bool true),
    ("maxBodyValueBytes", .num 1048576)], "0"⟩

/-- `getEmail` (methods.ts lines 109-123): fetch with full properties;
`result.list[0] || null`. -/
def getEmail (w : World) (emailId : String) : Op (Option Email) := do
  let accountId ← JMAPClient.getAccountId w.http
  issueCall (emailGetFullCall accountId emailId)
  pure ((w.emailStore.filter (fun e => e.id == emailId)).head?)

/-- The secondary `Email/get` call the search/list paths issue for the
ids an `Email/query` returned. -/
def emailGetListCall (accountId : String) (ids : List String) : Call :=
  ⟨"Email/get", .obj [("accountId", .str accountId),
    ("ids", jvalOfStrList ids),
    ("properties", jvalOfStrList EMAIL_LIST_PROPERTIES)], "0"⟩

/-- The fixed sort of the email query calls:
`[{property: "receivedAt", isAscending: false}]`. -/
def sortRecvDesc : JVal :=
  .arr [.obj [("property", .str "receivedAt"), ("isAscending", .bool false)]]

/-- The free-text filter `searchEmails` builds for a truthy `query`
(methods.ts lines 196-204): an OR of the four field conditions. -/
def orFilter (q : String) : JVal :=
  .obj [("operator", .str "OR"),
        ("conditions", .arr [.obj [("subject", .str q)],
                             .obj [("from", .str q)],
                             .obj [("to", .str q)],
                             .obj [("body", .str q)]])]

/-- One conditional string entry of the structured JMAP filter:
`if (filter.x) jmapFilter.x = filter.x`. -/
def strField (k : String) (v : Option String) : List (String × JVal) :=
  match optTruthy v with
  | some s => [(k, .str s)]
  | none => []

/-- One conditional date entry: a bare `YYYY-MM-DD` (no "T") is
normalized to midnight-UTC ISO 8601 (methods.ts lines 244-253). -/
def dateField (k : String) (v : Option String) : List (String × JVal) :=
  match optTruthy v with
  | some s => [(k, .str (if strContains s 'T' then s else s ++ "T00:00:00Z"))]
  | none => []

/-- One conditional boolean entry:
`if (filter.hasAttachment) jmapFilter.hasAttachment = true`. -/
def boolField (k : String) (v : Option Bool) : List (String × JVal) :=
  match v with
  | some true => [(k, JVal.bool true)]
  | _ => []

/-- One conditional numeric entry (`0` is falsy). -/
def intField (k : String) (v : Option Int) : List (String × JVal) :=
  match intTruthy v with
  | some n => [(k, JVal.num n)]
  | none => []

/-- One conditional keyword entry:
`if (filter.unread) jmapFilter.notKeyword = "$seen"`. -/
def kwField (k kw : String) (v : Option Bool) : List (String × JVal) :=
  match v with
  | some true => [(k, JVal.str kw)]
  | _ => []

/-- The structured JMAP filter `searchEmails` assembles (methods.ts
lines 222-257), with the entries in the source's insertion order;
`mailboxResolved` is the result of resolving `filter.mailbox` (the
entry is silently skipped when resolution found nothing). -/
def buildJmapFilter (f : SearchFilter) (mailboxResolved : Option Mailbox) : List (String × JVal) :=
  strField "from" f.from_ ++ strField "to" f.to_ ++ strField "cc" f.cc ++
  strField "bcc" f.bcc ++ strField "subject" f.subject ++ strField "body" f.body ++
  (match mailboxResolved with | some mb => [("inMailbox", JVal.str mb.id)] | none => []) ++
  boolField "hasAttachment" f.hasAttachment ++
  intField "minSize" f.minSize ++ intField "maxSize" f.maxSize ++
  dateField "before" f.before ++ dateField "after" f.after ++
  kwField "notKeyword" "$seen" f.unread ++ kwField "hasKeyword" "$flagged" f.flagged

/-- `searchEmails` (methods.ts lines 177-278).  A bare string becomes
`{query: s}`; a truthy `query` takes the OR branch (Fastmail has no
generic full-text operator); otherwise the structured filter is built,
resolving a truthy `mailbox` name first (its condition is dropped when
no mailbox matches).  An empty id list short-circuits without the
second round trip. -/
def searchEmails (w : World) (filter : SearchArg) (limit : Int) : Op (List Email) := do
  let accountId ← JMAPClient.getAccountId w.http
  let f : SearchFilter :=
    match filter with
    | .str s => { query := some s }
    | .filt f => f
  match optTruthy f.query with
  | some q => do
    issueCall ⟨"Email/query", .obj [("accountId", .str accountId),
      ("filter", orFilter q), ("sort", sortRecvDesc), ("limit", .num limit)], "0"⟩
    if w.queryIds.isEmpty then
      pure []
    else do
      issueCall (emailGetListCall accountId w.queryIds)
      pure (w.emailStore.filter (fun e => w.queryIds.contains e.id))
  | none => do
    let mailboxResolved ←
      match optTruthy f.mailbox with
      | some mname => getMailboxByName w mname
      | none => pure none
    let jmapFilter := buildJmapFilter f mailboxResolved
    issueCall ⟨"Email/query", .obj [("accountId", .str accountId),
      ("filter", .obj jmapFilter), ("sort", sortRecvDesc), ("limit", .num limit)], "0"⟩
    if w.queryIds.isEmpty then
      pure []
    else do
      issueCall (emailGetListCall accountId w.queryIds)
      pure (w.emailStore.filter (fun e => w.queryIds.contains e.id))

/-- The `Email/set` update call `moveEmail` issues: the new
`mailboxIds` value is exactly the one-entry map for the target. -/
def moveEmailSetCall (accountId emailId targetMailboxId : String) : Call :=
  ⟨"Email/set", .obj [("accountId", .str accountId),
    ("update", .obj [(emailId, .obj [("mailboxIds", .obj [(targetMailboxId, .bool true)])])])], "0"⟩

/-- `moveEmail` (methods.ts lines 282-309): resolve the target, fetch
the email, then replace its entire mailbox membership with
`{[targetMailbox.id]: true}`. -/
def moveEmail (w : World) (emailId targetMailboxName : String) : Op Unit := do
  let accountId ← JMAPClient.getAccountId w.http
  let targetMailbox? ← getMailboxByName w targetMailboxName
  match targetMailbox? with
  | none => Op.throw ("Target mailbox not found: " ++ targetMailboxName)
  | some targetMailbox => do
    let email? ← getEmail w emailId
    match email? with
    | none => Op.throw ("Email not found: " ++ emailId)
    | some _email => do
      issueCall (moveEmailSetCall accountId emailId targetMailbox.id)
      pure ()

/-- The `Identity/get` call `getIdentities` issues. -/
def identityGetCall (accountId : String) : Call :=
  ⟨"Identity/get", .obj [("accountId", .str accountId)], "0"⟩

/-- `getIdentities` (methods.ts lines 373-382). -/
def getIdentities (w : World) : Op (List Identity) := do
  let accountId ← JMAPClient.getAccountId w.http
  issueCall (identityGetCall accountId)
  pure w.identityList

/-- `getDefaultIdentity` (methods.ts lines 384-391): the first
identity, else throw. -/
def getDefaultIdentity (w : World) : Op Identity := do
  let identities ← getIdentities w
  match identities.head? with
  | none => Op.throw "No email identity found"
  | some identity => pure identity

/-- The email-creation object `sendEmail` builds for `params`
(methods.ts lines 422-443): drafts mailbox, `$draft` keyword, the
identity as `from`, a single plain-text body part keyed `"body"`;
`inReplyTo` only when truthy (wrapped in a one-element array),
`references` whenever present. -/
def emailCreateFor (identity : Identity) (draftsMailboxId : String) (params : SendEmailParams) : EmailCreate :=
  let base : EmailCreate :=
    { mailboxIds := [(draftsMailboxId, true)],
      keywords := [("$draft", true)],
      from_ := some [⟨some identity.name, identity.email⟩],
      to_ := some params.to_,
      cc := params.cc,
      bcc := params.bcc,
      subject := some params.subject,
      bodyValues := [("body", params.textBody)],
      textBody := [("body", "text/plain")] }
  let withReply :=
    match optTruthy params.inReplyTo with
    | some r => { base with inReplyTo := some [r] }
    | none => base
  match params.references with
  | some rs => { withReply with references := some rs }
  | none => withReply

/-- The `Email/set` call of `sendEmail`'s two-call batch. -/
def sendEmailSetCall (accountId : String) (create : EmailCreate) : Call :=
  ⟨"Email/set", .obj [("accountId", .str accountId),
    ("create", .obj [("draft", jvalOfEmailCreate create)])], "0"⟩

/-- The `EmailSubmission/set` call of `sendEmail`'s two-call batch: the
submission references the draft by the `#draft` back-reference, and the
on-success update moves the email to the sent mailbox and clears the
draft keyword. -/
def sendSubmissionCall (accountId identityId sentMailboxId : String) : Call :=
  ⟨"EmailSubmission/set", .obj [("accountId", .str accountId),
    ("create", .obj [("submission", .obj [("identityId", .str identityId),
      ("emailId", .str "#draft"), ("envelope", .null)])]),
    ("onSuccessUpdateEmail", .obj [("#submission", .obj [
      ("mailboxIds", .obj [(sentMailboxId, .bool true)]),
      ("keywords/$draft", .null)])])], "1"⟩

/-- `sendEmail` (methods.ts lines 406-526): create a draft and submit
it in one two-call batch, then inspect the demultiplexed responses:
a missing first response throws; `notCreated.draft` throws a creation
error; a missing created id throws; a present second response with
`notCreated.submission` throws a submission error — but a missing
second response is silently skipped (`if (submissionResponse)`). -/
def handleSendResponses (responses : List MethodResponse) : Op String :=
  match responses.head? with
  | none => Op.throw "No response from Email/set"
  | some emailSetResponse =>
    let emailSetResult := emailSetResponse.data
    if jTruthy (jGet2 emailSetResult "notCreated" "draft") then
      Op.throw ("Failed to create email: " ++
        remoteErrText ((jGet2 emailSetResult "notCreated" "draft").getD .null))
    else
      match (jGet2 emailSetResult "created" "draft").bind (fun c => jGet c "id") with
      | some (.str emailId) =>
        if emailId = "" then
          Op.throw "Failed to create email - no ID returned"
        else
          match responses[1]? with
          | some submissionResponse =>
            if jTruthy (jGet2 submissionResponse.data "notCreated" "submission") then
              Op.throw ("Failed to submit email: " ++
                remoteErrText ((jGet2 submissionResponse.data "notCreated" "submission").getD .null))
            else
              pure emailId
          | none => pure emailId
      | _ => Op.throw "Failed to create email - no ID returned"

/-- Body of `sendEmail` proper: resolve identity and the drafts/sent
mailboxes, issue the two-call batch, then inspect the responses. -/
def sendEmail (w : World) (params : SendEmailParams) : Op String := do
  let accountId ← JMAPClient.getAccountId w.http
  let identity ← getDefaultIdentity w
  let mailboxes ← listMailboxes w
  match mailboxes.find? (fun m => m.role == some "drafts"),
        mailboxes.find? (fun m => m.role == some "sent") with
  | some draftsMailbox, some sentMailbox => do
    let emailCreate := emailCreateFor identity draftsMailbox.id params
    let responses ← JMAPClient.request w.http
      [sendEmailSetCall accountId emailCreate,
       sendSubmissionCall accountId identity.id sentMailbox.id]
    handleSendResponses responses
  | _, _ => Op.throw "Could not find Drafts or Sent mailbox"

/-- The pure tail of `buildReply` (methods.ts lines 631-653), once the
original email and the reply address are at hand: `Re:` prefixing
(case-insensitive check), the reference chain (existing references,
then the original's message id when that string is truthy), and
`inReplyTo` set to the first message id. -/
def replyParamsFor (original : Email) (replyTo : EmailAddress) (replyBody : String) : SendEmailParams :=
  let subject0 := original.subject.getD ""
  let subject := if strStartsWith (strToLower subject0) "re:" then subject0 else "Re: " ++ subject0
  let references := original.references.getD [] ++
    (match original.messageId.bind List.head? with
     | some m => if m = "" then [] else [m]
     | none => [])
  { to_ := [replyTo],
    subject := subject,
    textBody := replyBody,
    inReplyTo := original.messageId.bind List.head?,
    references := if references.length > 0 then some references else none }

/-- `buildReply` (methods.ts lines 616-653): fetch the original, pick
the reply address (`replyTo[0] || from[0]`, throwing when neither
exists), and build the send parameters. -/
def buildReply (w : World) (originalEmailId replyBody : String) : Op SendEmailParams := do
  let original? ← getEmail w originalEmailId
  match original? with
  | none => Op.throw ("Original email not found: " ++ originalEmailId)
  | some original =>
    match (original.replyTo.bind List.head?).orElse (fun _ => original.from_.bind List.head?) with
    | none => Op.throw "Cannot determine reply address"
    | some replyTo => pure (replyParamsFor original replyTo replyBody)

/-! ## Tool handlers (index.ts) -/

/-- The `action` discriminator of the mutating tools. -/
inductive ToolAction where
  | preview : ToolAction
  | confirm : ToolAction

/-- `formatAddress` (index.ts lines 33-38): `name <email>` when the
name is truthy, else the bare address. -/
def formatAddress (addr : EmailAddress) : String :=
  match optTruthy addr.name with
  | some n => n ++ " <" ++ addr.email ++ ">"
  | none => addr.email

/-- `formatAddressList` (index.ts lines 40-43). -/
def formatAddressList (addrs : Option (List EmailAddress)) : String :=
  match addrs with
  | none => "(none)"
  | some l => if l.isEmpty then "(none)" else String.intercalate ", " (l.map formatAddress)

/-- The `parseAddresses` lambda both handlers define (index.ts lines
379-380 and 453-454): split on commas, trim, no display name. -/
def parseAddresses (s : String) : List EmailAddress :=
  (strSplitOn s ',').map (fun e => ⟨none, strTrim e⟩)

/-- Renders an optional address list, as the preview templates do:
`x ? formatAddressList(x) : "(none)"`. -/
def addrOptRender (x : Option (List EmailAddress)) : String :=
  match x with
  | some a => formatAddressList (some a)
  | none => "(none)"

/-- The preview text of the `send_email` tool (index.ts lines 391-402). -/
def sendPreviewText (toS ccS bccS subject body : String) : String :=
  "📧 EMAIL PREVIEW - Review before sending:\n\nTo: " ++ toS ++
  "\nCC: " ++ ccS ++ "\nBCC: " ++ bccS ++ "\nSubject: " ++ subject ++
  "\n\n--- Body ---\n" ++ body ++
  "\n\n---\nTo send this email, call this tool again with action: \"confirm\" and the same parameters."

/-- The success text of the `send_email` tool (index.ts lines 420-423). -/
def sendSentText (toS subject emailId : String) : String :=
  "✓ Email sent successfully!\nTo: " ++ toS ++ "\nSubject: " ++ subject ++
  "\nEmail ID: " ++ emailId

/-- `send_email` tool handler (index.ts lines 359-428): parse the
address arguments, then either render the preview (no further effect)
or send. -/
def sendEmailTool (w : World) (action : ToolAction)
    (to_ subject body : String) (cc bcc : Option String) : Op String :=
  let toAddrs := parseAddresses to_
  let ccAddrs := (optTruthy cc).map parseAddresses
  let bccAddrs := (optTruthy bcc).map parseAddresses
  match action with
  | .preview =>
    pure (sendPreviewText (formatAddressList (some toAddrs)) (addrOptRender ccAddrs)
      (addrOptRender bccAddrs) subject body)
  | .confirm => do
    let emailId ← sendEmail w
      { to_ := toAddrs, subject := subject, textBody := body, cc := ccAddrs, bcc := bccAddrs }
    pure (sendSentText (formatAddressList (some toAddrs)) subject emailId)

/-- The cc/bcc overrides the `reply_to_email` handler applies to the
built reply parameters (index.ts lines 458-464). -/
def applyCcBcc (p : SendEmailParams) (cc bcc : Option String) : SendEmailParams :=
  let p1 := match optTruthy cc with
    | some c => { p with cc := some (parseAddresses c) }
    | none => p
  match optTruthy bcc with
  | some b => { p1 with bcc := some (parseAddresses b) }
  | none => p1

/-- The preview text of the `reply_to_email` tool (index.ts lines
471-483). -/
def replyPreviewText (toS ccS bccS subject inReplyToS body : String) : String :=
  "📧 REPLY PREVIEW - Review before sending:\n\nTo: " ++ toS ++
  "\nCC: " ++ ccS ++ "\nBCC: " ++ bccS ++ "\nSubject: " ++ subject ++
  "\nIn-Reply-To: " ++ inReplyToS ++
  "\n\n--- Your Reply ---\n" ++ body ++
  "\n\n---\nTo send this reply, call this tool again with action: \"confirm\" and the same parameters."

/-- The success text of the `reply_to_email` tool (index.ts lines
495-498). -/
def replySentText (toS subject emailId : String) : String :=
  "✓ Reply sent successfully!\nTo: " ++ toS ++ "\nSubject: " ++ subject ++
  "\nEmail ID: " ++ emailId

/-- `reply_to_email` tool handler (index.ts lines 430-503): build the
reply parameters (this fetches the original email), apply cc/bcc, then
either render the preview or send. -/
def replyToEmailTool (w : World) (action : ToolAction)
    (email_id body : String) (cc bcc : Option String) : Op String := do
  let replyParams0 ← buildReply w email_id body
  let replyParams := applyCcBcc replyParams0 cc bcc
  match action with
  | .preview =>
    pure (replyPreviewText (formatAddressList (some replyParams.to_))
      (addrOptRender replyParams.cc) (addrOptRender replyParams.bcc)
      replyParams.subject
      (match optTruthy replyParams.inReplyTo with | some s => s | none => "(none)")
      body)
  | .confirm => do
    let emailId ← sendEmail w replyParams
    pure (replySentText (formatAddressList (some replyParams.to_)) replyParams.subject emailId)

/-! ## Concrete worlds for witnesses and counterexamples -/

/-- A concrete session whose mail capability points at account
`"acc1"`. -/
def sessW : JMAPSession :=
  { primaryAccounts := [("urn:ietf:params:jmap:mail", "acc1")],
    apiUrl := "https://api.fastmail.com/jmap/api" }

/-- A transport in which the session fetch succeeds and every batch
returns an empty response array. -/
def httpOkW : HttpWorld :=
  { sessionResponse := .ok sessW, batchResponse := fun _ => .ok [] }

/-- A transport whose batches answer with a remote-reported error
entry. -/
def httpErrW : HttpWorld :=
  { sessionResponse := .ok sessW,
    batchResponse := fun _ => .ok
      [⟨"error", .obj [("type", .str "unknownMethod"), ("description", .str "nope")], "0"⟩] }

/-- A client state with the session already cached (one fetch done). -/
def stW : ClientState :=
  { session := some sessW, fetchCount := 1, postCount := 0, trace := [] }

/-- Concrete mailboxes. -/
def mbInbox : Mailbox := { id := "MB1", name := "Inbox", role := some "inbox" }

/-- Concrete archive mailbox. -/
def mbArchive : Mailbox := { id := "MB2", name := "Archive", role := some "archive" }

/-- Concrete drafts mailbox. -/
def mbDrafts : Mailbox := { id := "MB3", name := "Drafts", role := some "drafts" }

/-- Concrete sent mailbox. -/
def mbSent : Mailbox := { id := "MB4", name := "Sent", role := some "sent" }

/-- Concrete identity. -/
def idnW : Identity := { id := "ID1", name := "Test User", email := "me@example.com" }

/-- A concrete original email with a from-address, two references and
a message id, sitting in two mailboxes. -/
def emailOrig : Email :=
  { id := "E1", threadId := "T1", mailboxIds := [("MB1", true), ("MB2", true)],
    from_ := some [⟨some "Alice", "alice@example.com"⟩],
    subject := some "Hello",
    messageId := some ["mid-1"], references := some ["refA", "refB"] }

/-- World for the send/reply witness: session, one identity, drafts and
sent mailboxes, and the original email. -/
def wC1 : World :=
  { http := httpOkW,
    mailboxList := [mbInbox, mbDrafts, mbSent],
    emailStore := [emailOrig],
    identityList := [idnW],
    queryIds := [] }

/-- World for the move witness: inbox and archive mailboxes, and an
email sitting in two mailboxes at once. -/
def wC5 : World :=
  { http := httpOkW, mailboxList := [mbInbox, mbArchive], emailStore := [emailOrig] }

/-- World for the short-response counterexample: the third POST (the
send batch, after the identity and mailbox reads) answers a two-call
batch with a single response carrying the created draft id. -/
def w3 : World :=
  { http := { sessionResponse := .ok sessW,
              batchResponse := fun n =>
                if n = 2 then
                  .ok [⟨"Email/set",
                        .obj [("created", .obj [("draft", .obj [("id", .str "E9")])])],
                        "0"⟩]
                else .ok [] },
    mailboxList := [mbDrafts, mbSent],
    identityList := [idnW] }

/-- World for the empty-search-string counterexample. -/
def w6 : World := { http := httpOkW }

/-- An original email whose first message id is the empty string. -/
def emailEmptyMid : Email :=
  { id := "E1", from_ := some [⟨some "Alice", "alice@example.com"⟩],
    subject := some "Hello",
    messageId := some [""], references := some ["A", "B"] }

/-- World for the empty-message-id counterexample. -/
def w7 : World := { http := httpOkW, emailStore := [emailEmptyMid] }

/-- An email with neither a reply-to nor a from address. -/
def emailNoAddr : Email := { id := "E1", subject := some "Hello" }

/-- World for the no-reply-address counterexample. -/
def w8 : World := { http := httpOkW, emailStore := [emailNoAddr] }

/-- Mailboxes exercising every branch of the resolution precedence. -/
def mbResA : Mailbox := { id := "A", name := "Personal" }

/-- Role-only match for `"sent"`. -/
def mbResB : Mailbox := { id := "B", name := "Sent Items", role := some "sent" }

/-- Case-insensitive-only match for `"SENT"`. -/
def mbResC : Mailbox := { id := "C", name := "SENT" }

/-- Resolution witness list. -/
def msRes : List Mailbox := [mbResA, mbResB, mbResC]

/-- World for the mailbox-miss search witness: no mailbox matches the
name used in the filter. -/
def w10 : World := { http := httpOkW, mailboxList := [mbInbox], queryIds := ["Q1"] }

/-! ## Infrastructure lemmas -/

/-- Unfolding of `Op` bind on a state. -/
@[simp] theorem Op_bind_apply {α β : Type} (x : Op α) (f : α → Op β) (st : ClientState) :
    (x >>= f) st = match x st with
      | .ok a st' => f a st'
      | .error e st' => .error e st' := rfl

/-- Unfolding of `Op` pure on a state. -/
@[simp] theorem Op_pure_apply {α : Type} (a : α) (st : ClientState) :
    (pure a : Op α) st = .ok a st := rfl

/-- Unfolding of `Op.throw` on a state. -/
@[simp] theorem Op_throw_apply {α : Type} (msg : String) (st : ClientState) :
    (Op.throw msg : Op α) st = .error msg st := rfl

/-- A truthy optional string passes through `optTruthy`. -/
theorem optTruthy_some {s : String} (h : s ≠ "") : optTruthy (some s) = some s := by
  unfold optTruthy
  split
  · next heq => exact absurd (by injection heq) h
  · rfl

/-- `writeCalls` distributes over append. -/
theorem writeCalls_append (a b : List Call) :
    writeCalls (a ++ b) = writeCalls a ++ writeCalls b := by
  simp [writeCalls, List.filter_append]

/-- A single read call contributes no write calls. -/
theorem writeCalls_read_singleton (c : Call)
    (h1 : c.name ≠ "Email/set") (h2 : c.name ≠ "EmailSubmission/set") :
    writeCalls [c] = [] := by
  have e1 : (c.name == "Email/set") = false := by simp [h1]
  have e2 : (c.name == "EmailSubmission/set") = false := by simp [h2]
  simp [writeCalls, List.filter, e1, e2]

/-! ## C9: session caching -/

/-- C9: starting from a fresh client instance, two sequential
`getSession()` calls with no intervening reset perform exactly one
network fetch (the fetch counter goes from 0 to 1 on the first call
and is unchanged by the second), and both calls return the identical
session value. -/
theorem getSession_single_fetch (w : HttpWorld) (sess : JMAPSession)
    (h : w.sessionResponse = .ok sess) :
    ∃ st1, JMAPClient.getSession w freshClient = .ok sess st1
      ∧ JMAPClient.getSession w st1 = .ok sess st1
      ∧ st1.fetchCount = 1 ∧ freshClient.fetchCount = 0 := by
  refine ⟨{ freshClient with session := some sess, fetchCount := 1 }, ?_, ?_, rfl, rfl⟩
  · simp [JMAPClient.getSession, freshClient, h]
  · simp [JMAPClient.getSession]

/-- Witness for C9 at a concrete transport. -/
theorem getSession_single_fetch_witness :
    ∃ st1, JMAPClient.getSession httpOkW freshClient = .ok sessW st1
      ∧ JMAPClient.getSession httpOkW st1 = .ok sessW st1
      ∧ st1.fetchCount = 1 ∧ freshClient.fetchCount = 0 :=
  getSession_single_fetch httpOkW sessW rfl

/-! ## C2: protocol error scan -/

/-- C2: for every batch sent through the protocol client whose POST
yields a response array, if any entry is named the reserved literal
`"error"` the client throws a protocol error built from the (first
such) entry's remote-reported type and description, before returning
anything; if no entry is named `"error"`, the full ordered response
array is returned. -/
theorem request_error_scan (w : HttpWorld) (st : ClientState) (sess : JMAPSession)
    (calls : List Call) (mrs : List MethodResponse)
    (hsess : st.session = some sess)
    (hbatch : w.batchResponse st.postCount = .ok mrs) :
    (∀ r, mrs.find? (fun x => x.name == "error") = some r →
        JMAPClient.request w calls st =
          .error (jmapErrorMessage r.data)
            { st with postCount := st.postCount + 1, trace := st.trace ++ calls })
    ∧ (mrs.find? (fun x => x.name == "error") = none →
        JMAPClient.request w calls st =
          .ok mrs { st with postCount := st.postCount + 1, trace := st.trace ++ calls })
    ∧ (∀ r t d, mrs.find? (fun x => x.name == "error") = some r →
        jGet r.data "type" = some (.str t) →
        jGet r.data "description" = some (.str d) → d ≠ "" →
        JMAPClient.request w calls st =
          .error ("JMAP error: " ++ t ++ " - " ++ d)
            { st with postCount := st.postCount + 1, trace := st.trace ++ calls }) := by
  refine ⟨?_, ?_, ?_⟩
  · intro r hr
    simp [JMAPClient.request, JMAPClient.getSession, hsess, hbatch, hr]
  · intro hr
    simp [JMAPClient.request, JMAPClient.getSession, hsess, hbatch, hr]
  · intro r t d hr ht hd hdne
    have : jmapErrorMessage r.data = "JMAP error: " ++ t ++ " - " ++ d := by
      simp [jmapErrorMessage, remoteErrText, ht, hd, tmplStr, jTruthy, hdne, String.append_assoc]
    simp [JMAPClient.request, JMAPClient.getSession, hsess, hbatch, hr, this]

/-- Witness for C2: a concrete batch whose response carries an error
entry, and one whose response is clean. -/
theorem request_error_scan_witness :
    JMAPClient.request httpErrW [⟨"Mailbox/get", .obj [("accountId", .str "acc1")], "0"⟩] stW =
      .error "JMAP error: unknownMethod - nope"
        { stW with
            postCount := 1
            trace := [⟨"Mailbox/get", .obj [("accountId", .str "acc1")], "0"⟩] } ∧
    JMAPClient.request httpOkW [⟨"Mailbox/get", .obj [("accountId", .str "acc1")], "0"⟩] stW =
      .ok [] { stW with
                postCount := 1
                trace := [⟨"Mailbox/get", .obj [("accountId", .str "acc1")], "0"⟩] } := by
  constructor
  · exact (request_error_scan httpErrW stW sessW _ _ rfl rfl).2.2
      ⟨"error", .obj [("type", .str "unknownMethod"), ("description", .str "nope")], "0"⟩
      "unknownMethod" "nope" rfl rfl rfl (by decide)
  · exact (request_error_scan httpOkW stW sessW _ _ rfl rfl).2.1 rfl

/-! ## C3: missing responses -/

/-- C3 (amended): for a single-call batch issued through the `call`
helper, an empty response array makes the client fail with the
missing-response error for that method rather than return normally. -/
theorem call_missing_response_throws (w : HttpWorld) (st : ClientState) (sess : JMAPSession)
    (method : String) (args : JVal) (callId : String)
    (hsess : st.session = some sess)
    (hbatch : w.batchResponse st.postCount = .ok []) :
    JMAPClient.call w method args callId st =
      .error ("No response for method " ++ method)
        { st with
            postCount := st.postCount + 1
            trace := st.trace ++ [⟨method, args, callId⟩] } := by
  simp [JMAPClient.call, JMAPClient.request, JMAPClient.getSession, hsess, hbatch]

/-- Witness for C3's amended theorem at a concrete transport. -/
theorem call_missing_response_throws_witness :
    JMAPClient.call httpOkW "Mailbox/get" (.obj [("accountId", .str "acc1")]) "0" stW =
      .error "No response for method Mailbox/get"
        { stW with
            postCount := 1
            trace := [⟨"Mailbox/get", .obj [("accountId", .str "acc1")], "0"⟩] } := by
  exact call_missing_response_throws httpOkW stW sessW "Mailbox/get"
    (.obj [("accountId", .str "acc1")]) "0" rfl rfl

/-- C3 (counterexample): `sendEmail` submits a two-call batch, but when
the response array contains only the `Email/set` entry (the
submission's correlation id has no matching response) it returns the
created id normally — the `if (submissionResponse)` guard silently
skips the missing-response case instead of failing. -/
theorem sendEmail_short_response_proceeds :
    resultOf (sendEmail w3 { to_ := [⟨none, "bob@example.com"⟩], subject := "Hi", textBody := "Yo" } stW)
      = some "E9"
    ∧ (stateOf (sendEmail w3 { to_ := [⟨none, "bob@example.com"⟩], subject := "Hi", textBody := "Yo" } stW)).trace.length = 4
    ∧ (w3.http.batchResponse 2).map List.length = .ok 1 := by
  refine ⟨?_, ?_, ?_⟩ <;> rfl

/-! ## C4: mailbox resolution precedence -/

/-- C4: mailbox-name resolution returns the first mailbox whose name
equals the input exactly (case-sensitively); failing that, the first
whose role equals the lower-cased input; failing that, the first whose
lower-cased name equals the lower-cased input; and when no mailbox
matches under any of the three rules it returns no result. -/
theorem mailbox_resolution_precedence (ms : List Mailbox) (n : String) :
    (∀ l1 m l2, ms = l1 ++ m :: l2 → m.name = n → (∀ x ∈ l1, x.name ≠ n) →
        resolveMailbox ms n = some m)
    ∧ ((∀ x ∈ ms, x.name ≠ n) →
        ∀ l1 m l2, ms = l1 ++ m :: l2 → m.role = some (strToLower n) →
          (∀ x ∈ l1, x.role ≠ some (strToLower n)) → resolveMailbox ms n = some m)
    ∧ ((∀ x ∈ ms, x.name ≠ n) → (∀ x ∈ ms, x.role ≠ some (strToLower n)) →
        ∀ l1 m l2, ms = l1 ++ m :: l2 → strToLower m.name = strToLower n →
          (∀ x ∈ l1, strToLower x.name ≠ strToLower n) → resolveMailbox ms n = some m)
    ∧ ((∀ x ∈ ms, x.name ≠ n ∧ x.role ≠ some (strToLower n) ∧ strToLower x.name ≠ strToLower n) →
        resolveMailbox ms n = none) := by
  refine ⟨?_, ?_, ?_, ?_⟩
  · intro l1 m l2 hsplit hm hl1
    have h1 : ms.find? (fun x => x.name == n) = some m := by
      rw [List.find?_eq_some]
      exact ⟨by simp [hm], l1, l2, hsplit, fun a ha => by simp [hl1 a ha]⟩
    simp [resolveMailbox, h1, Option.orElse]
  · intro hnone l1 m l2 hsplit hm hl1
    have h1 : ms.find? (fun x => x.name == n) = none :=
      List.find?_eq_none.mpr (fun x hx => by simp [hnone x hx])
    have h2 : ms.find? (fun x => x.role == some (strToLower n)) = some m := by
      rw [List.find?_eq_some]
      exact ⟨by simp [hm], l1, l2, hsplit, fun a ha => by simp [hl1 a ha]⟩
    simp [resolveMailbox, h1, h2, Option.orElse]
  · intro hname hrole l1 m l2 hsplit hm hl1
    have h1 : ms.find? (fun x => x.name == n) = none :=
      List.find?_eq_none.mpr (fun x hx => by simp [hname x hx])
    have h2 : ms.find? (fun x => x.role == some (strToLower n)) = none :=
      List.find?_eq_none.mpr (fun x hx => by simp [hrole x hx])
    have h3 : ms.find? (fun x => strToLower x.name == strToLower n) = some m := by
      rw [List.find?_eq_some]
      exact ⟨by simp [hm], l1, l2, hsplit, fun a ha => by simp [hl1 a ha]⟩
    simp [resolveMailbox, h1, h2, h3, Option.orElse]
  · intro hall
    have h1 : ms.find? (fun x => x.name == n) = none :=
      List.find?_eq_none.mpr (fun x hx => by simp [(hall x hx).1])
    have h2 : ms.find? (fun x => x.role == some (strToLower n)) = none :=
      List.find?_eq_none.mpr (fun x hx => by simp [(hall x hx).2.1])
    have h3 : ms.find? (fun x => strToLower x.name == strToLower n) = none :=
      List.find?_eq_none.mpr (fun x hx => by simp [(hall x hx).2.2])
    simp [resolveMailbox, h1, h2, h3, Option.orElse]

/-- Witness for C4: the three precedence levels and the no-match case
on a concrete listing.  `"SENT"` matches a name exactly even though an
earlier mailbox carries the `sent` role; `"sent"` has no exact match
and resolves by role; `"Sent items"` resolves only case-insensitively;
`"Missing"` resolves to nothing. -/
theorem mailbox_resolution_precedence_witness :
    resolveMailbox msRes "SENT" = some mbResC
    ∧ resolveMailbox msRes "sent" = some mbResB
    ∧ resolveMailbox msRes "Sent items" = some mbResB
    ∧ resolveMailbox msRes "Missing" = none := by
  refine ⟨?_, ?_, ?_, ?_⟩
  · exact (mailbox_resolution_precedence msRes "SENT").1 [mbResA, mbResB] mbResC [] rfl rfl
      (by decide)
  · exact (mailbox_resolution_precedence msRes "sent").2.1 (by decide) [mbResA] mbResB [mbResC]
      rfl (by decide) (by decide)
  · exact (mailbox_resolution_precedence msRes "Sent items").2.2.1 (by decide) (by decide)
      [mbResA] mbResB [mbResC] rfl (by decide) (by decide)
  · exact (mailbox_resolution_precedence msRes "Missing").2.2.2 (by decide)

/-! ## C5: move replaces the whole membership -/

/-- C5: for every email id and every resolvable target mailbox name,
`moveEmail` issues an `Email/set` update whose `mailboxIds` value is
exactly the one-entry map sending the target mailbox id to `true`,
whatever mailboxes the email belonged to before (the prior membership
of the fetched email never enters the update). -/
theorem moveEmail_singleton_membership (w : World) (st : ClientState) (sess : JMAPSession)
    (aid emailId targetName : String) (mb : Mailbox) (e : Email)
    (hsess : st.session = some sess)
    (haid : rlookup sess.primaryAccounts "urn:ietf:params:jmap:mail" = some aid)
    (hmb : resolveMailbox w.mailboxList targetName = some mb)
    (he : (w.emailStore.filter (fun x => x.id == emailId)).head? = some e) :
    moveEmail w emailId targetName st =
      .ok () { st with
                postCount := st.postCount + 1 + 1 + 1
                trace := st.trace ++ [mailboxGetCall aid, emailGetFullCall aid emailId,
                  ⟨"Email/set", .obj [("accountId", .str aid),
                    ("update", .obj [(emailId,
                      .obj [("mailboxIds", .obj [(mb.id, .bool true)])])])], "0"⟩] } := by
  simp [moveEmail, getMailboxByName, listMailboxes, getEmail, getIdentities,
        JMAPClient.getAccountId, JMAPClient.getSession, issueCall, moveEmailSetCall,
        hsess, haid, hmb, he, List.append_assoc]

/-- Witness for C5: moving an email that currently sits in two
mailboxes into the archive produces the singleton update map. -/
theorem moveEmail_singleton_membership_witness :
    moveEmail wC5 "E1" "Archive" stW =
      .ok () { stW with
                postCount := 3
                trace := [mailboxGetCall "acc1", emailGetFullCall "acc1" "E1",
                  ⟨"Email/set", .obj [("accountId", .str "acc1"),
                    ("update", .obj [("E1",
                      .obj [("mailboxIds", .obj [("MB2", .bool true)])])])], "0"⟩] } := by
  exact moveEmail_singleton_membership wC5 stW sessW "acc1" "E1" "Archive" mbArchive emailOrig
    rfl rfl rfl rfl

/-! ## C6: free-text search builds an OR of four conditions -/

/-- C6 (amended): for every nonempty free-text search string, the
issued `Email/query` carries a filter that is the OR of exactly the
four field conditions subject/from/to/body, each equal to the string.
(The empty string is falsy in JavaScript, falls through to the
structured branch, and produces an empty conjunction instead.) -/
theorem searchEmails_freetext_or (w : World) (st : ClientState) (sess : JMAPSession)
    (aid q : String) (limit : Int)
    (hsess : st.session = some sess)
    (haid : rlookup sess.primaryAccounts "urn:ietf:params:jmap:mail" = some aid)
    (hq : q ≠ "") :
    (stateOf (searchEmails w (.str q) limit st)).trace =
      st.trace ++ [⟨"Email/query", .obj [("accountId", .str aid), ("filter", orFilter q),
        ("sort", sortRecvDesc), ("limit", .num limit)], "0"⟩]
      ++ (if w.queryIds.isEmpty then [] else [emailGetListCall aid w.queryIds]) := by
  have hopt := optTruthy_some hq
  cases hqi : w.queryIds.isEmpty <;>
    simp [searchEmails, JMAPClient.getAccountId, JMAPClient.getSession, issueCall,
          hsess, haid, hopt, hqi, stateOf, List.append_assoc]

/-- Witness for C6 at a concrete query. -/
theorem searchEmails_freetext_or_witness :
    (stateOf (searchEmails w10 (.str "meeting") 25 stW)).trace =
      [⟨"Email/query", .obj [("accountId", .str "acc1"), ("filter", orFilter "meeting"),
        ("sort", sortRecvDesc), ("limit", .num 25)], "0"⟩,
       emailGetListCall "acc1" ["Q1"]] := by
  have h := searchEmails_freetext_or w10 stW sessW "acc1" "meeting" 25 rfl rfl (by decide)
  simpa [stW, w10] using h

/-- C6 (counterexample): searching for the bare empty string does not
issue the OR-of-four filter — the falsy `query` drops to the
structured branch and the issued filter is the empty object. -/
theorem searchEmails_empty_query_not_or :
    (stateOf (searchEmails w6 (.str "") 25 stW)).trace =
      [⟨"Email/query", .obj [("accountId", .str "acc1"), ("filter", .obj []),
        ("sort", sortRecvDesc), ("limit", .num 25)], "0"⟩]
    ∧ JVal.obj [] ≠ orFilter "" := by
  constructor
  · rfl
  · simp [orFilter]

/-! ## C10: mailbox filter that resolves to nothing -/

/-- Keys contributed by `strField` are the fixed key. -/
theorem strField_key {k : String} {v : Option String} {kv : String × JVal}
    (h : kv ∈ strField k v) : kv.1 = k := by
  unfold strField at h
  rcases hv : optTruthy v with _ | s <;> rw [hv] at h <;> simp at h
  subst h; rfl

/-- Keys contributed by `dateField` are the fixed key. -/
theorem dateField_key {k : String} {v : Option String} {kv : String × JVal}
    (h : kv ∈ dateField k v) : kv.1 = k := by
  unfold dateField at h
  rcases hv : optTruthy v with _ | s <;> rw [hv] at h <;> simp at h
  subst h; rfl

/-- Keys contributed by `boolField` are the fixed key. -/
theorem boolField_key {k : String} {v : Option Bool} {kv : String × JVal}
    (h : kv ∈ boolField k v) : kv.1 = k := by
  unfold boolField at h
  rcases hv : v with _ | b
  · rw [hv] at h; simp at h
  · cases b <;> rw [hv] at h <;> simp at h
    subst h; rfl

/-- Keys contributed by `intField` are the fixed key. -/
theorem intField_key {k : String} {v : Option Int} {kv : String × JVal}
    (h : kv ∈ intField k v) : kv.1 = k := by
  unfold intField at h
  rcases hv : intTruthy v with _ | n <;> rw [hv] at h <;> simp at h
  subst h; rfl

/-- Keys contributed by `kwField` are the fixed key. -/
theorem kwField_key {k kw : String} {v : Option Bool} {kv : String × JVal}
    (h : kv ∈ kwField k kw v) : kv.1 = k := by
  unfold kwField at h
  rcases hv : v with _ | b
  · rw [hv] at h; simp at h
  · cases b <;> rw [hv] at h <;> simp at h
    subst h; rfl

/-- When the mailbox name resolved to nothing, the assembled filter
contains no `inMailbox` key at all. -/
theorem buildJmapFilter_inMailbox_none (f : SearchFilter) :
    rlookup (buildJmapFilter f none) "inMailbox" = none := by
  have hkeys : ∀ kv ∈ buildJmapFilter f none, kv.1 ≠ "inMailbox" := by
    intro kv hkv
    simp only [buildJmapFilter, List.mem_append, List.not_mem_nil, or_false, false_or] at hkv
    rcases hkv with (((((((((((h|h)|h)|h)|h)|h)|h)|h)|h)|h)|h)|h)|h
    · rw [strField_key h]; decide
    · rw [strField_key h]; decide
    · rw [strField_key h]; decide
    · rw [strField_key h]; decide
    · rw [strField_key h]; decide
    · rw [strField_key h]; decide
    · rw [boolField_key h]; decide
    · rw [intField_key h]; decide
    · rw [intField_key h]; decide
    · rw [dateField_key h]; decide
    · rw [dateField_key h]; decide
    · rw [kwField_key h]; decide
    · rw [kwField_key h]; decide
  unfold rlookup
  have hfind : (buildJmapFilter f none).find? (fun kv => kv.1 == "inMailbox") = none :=
    List.find?_eq_none.mpr (fun kv hkv => by simp [hkeys kv hkv])
  rw [hfind]; rfl

/-- C10: when a structured search filter names a mailbox that resolves
to no mailbox, `searchEmails` raises no error and silently issues the
query without any `inMailbox` condition — the search proceeds
unrestricted by mailbox. -/
theorem search_unresolved_mailbox_omitted (w : World) (st : ClientState) (sess : JMAPSession)
    (aid mname : String) (f : SearchFilter) (limit : Int)
    (hsess : st.session = some sess)
    (haid : rlookup sess.primaryAccounts "urn:ietf:params:jmap:mail" = some aid)
    (hq : optTruthy f.query = none)
    (hmb : optTruthy f.mailbox = some mname)
    (hres : resolveMailbox w.mailboxList mname = none) :
    errorOf (searchEmails w (.filt f) limit st) = none
    ∧ (stateOf (searchEmails w (.filt f) limit st)).trace =
        st.trace ++ [mailboxGetCall aid,
          ⟨"Email/query", .obj [("accountId", .str aid),
            ("filter", .obj (buildJmapFilter f none)), ("sort", sortRecvDesc),
            ("limit", .num limit)], "0"⟩]
        ++ (if w.queryIds.isEmpty then [] else [emailGetListCall aid w.queryIds])
    ∧ rlookup (buildJmapFilter f none) "inMailbox" = none := by
  refine ⟨?_, ?_, buildJmapFilter_inMailbox_none f⟩ <;>
    (cases hqi : w.queryIds.isEmpty <;>
      simp [searchEmails, getMailboxByName, listMailboxes, JMAPClient.getAccountId,
            JMAPClient.getSession, issueCall, hsess, haid, hq, hmb, hres, hqi,
            errorOf, stateOf, List.append_assoc])

/-- Witness for C10: a filter naming the mailbox `"Nope"` against a
listing that only holds the inbox. -/
theorem search_unresolved_mailbox_omitted_witness :
    errorOf (searchEmails w10 (.filt { from_ := some "alice@example.com", mailbox := some "Nope" }) 25 stW) = none
    ∧ rlookup (buildJmapFilter { from_ := some "alice@example.com", mailbox := some "Nope" } none) "inMailbox" = none := by
  have h := search_unresolved_mailbox_omitted w10 stW sessW "acc1" "Nope"
    { from_ := some "alice@example.com", mailbox := some "Nope" } 25 rfl rfl rfl rfl rfl
  exact ⟨h.1, h.2.2⟩

/-! ## C7: reply reference chain -/

/-- C7 (amended): for an original email whose references list is `R`
and whose message-id list has a non-empty (truthy) first element `m`,
`buildReply` produces send parameters with `references = R ++ [m]` and
`inReplyTo = m`; and whenever the original has no references and no
truthy first message id, the `references` field is omitted entirely.
(A first message id equal to the empty string is falsy in JavaScript:
it is assigned to `inReplyTo` but never pushed onto the chain.) -/
theorem buildReply_reference_chain (w : World) (st : ClientState) (sess : JMAPSession)
    (aid emailId replyBody : String) (orig : Email) (a : EmailAddress)
    (m : String) (tl : List String)
    (hsess : st.session = some sess)
    (haid : rlookup sess.primaryAccounts "urn:ietf:params:jmap:mail" = some aid)
    (he : (w.emailStore.filter (fun x => x.id == emailId)).head? = some orig)
    (haddr : (orig.replyTo.bind List.head?).orElse (fun _ => orig.from_.bind List.head?) = some a)
    (hmid : orig.messageId = some (m :: tl)) (hm : m ≠ "") :
    buildReply w emailId replyBody st =
      .ok (replyParamsFor orig a replyBody)
        { st with
            postCount := st.postCount + 1
            trace := st.trace ++ [emailGetFullCall aid emailId] }
    ∧ (replyParamsFor orig a replyBody).references = some (orig.references.getD [] ++ [m])
    ∧ (replyParamsFor orig a replyBody).inReplyTo = some m
    ∧ (∀ orig2 a2 rb2, orig2.references.getD ([] : List String) = [] →
        (∀ mm, orig2.messageId.bind List.head? = some mm → mm = "") →
        (replyParamsFor orig2 a2 rb2).references = none) := by
  refine ⟨?_, ?_, ?_, ?_⟩
  · simp [buildReply, getEmail, JMAPClient.getAccountId, JMAPClient.getSession,
          issueCall, hsess, haid, he, haddr]
  · simp [replyParamsFor, hmid, hm]
  · simp [replyParamsFor, hmid]
  · intro orig2 a2 rb2 href hmm
    rcases h2 : orig2.messageId.bind List.head? with _ | mm
    · simp [replyParamsFor, h2, href]
    · have : mm = "" := hmm mm h2
      subst this
      simp [replyParamsFor, h2, href]

/-- Witness for C7 on the concrete original with references
`["refA", "refB"]` and message id `"mid-1"`. -/
theorem buildReply_reference_chain_witness :
    buildReply wC1 "E1" "Thanks!" stW =
      .ok (replyParamsFor emailOrig ⟨some "Alice", "alice@example.com"⟩ "Thanks!")
        { stW with
            postCount := 1
            trace := [emailGetFullCall "acc1" "E1"] }
    ∧ (replyParamsFor emailOrig ⟨some "Alice", "alice@example.com"⟩ "Thanks!").references =
        some ["refA", "refB", "mid-1"]
    ∧ (replyParamsFor emailOrig ⟨some "Alice", "alice@example.com"⟩ "Thanks!").inReplyTo =
        some "mid-1" := by
  have h := buildReply_reference_chain wC1 stW sessW "acc1" "E1" "Thanks!" emailOrig
    ⟨some "Alice", "alice@example.com"⟩ "mid-1" [] rfl rfl rfl rfl rfl (by decide)
  exact ⟨h.1, h.2.1, h.2.2.1⟩

/-- C7 (counterexample): an original whose references are `["A", "B"]`
and whose message-id list is `[""]` yields a reply whose references
are `["A", "B"]`, not `["A", "B", ""]` — the claim's chain equation
fails at this input. -/
theorem buildReply_empty_messageId_drops_ref :
    (resultOf (buildReply w7 "E1" "hi" stW)).map (fun p => p.references) =
      some (some ["A", "B"])
    ∧ (resultOf (buildReply w7 "E1" "hi" stW)).map (fun p => p.inReplyTo) =
      some (some "")
    ∧ some ["A", "B"] ≠ some ["A", "B", ""] := by
  refine ⟨rfl, rfl, by simp⟩

/-! ## C8: reply with no derivable address -/

/-- C8 (amended): when the original email has no reply-to address and
no from address, the reply operation fails with the "Cannot determine
reply address" condition before any write call (`Email/set` or
`EmailSubmission/set`) is issued — the only network traffic before the
failure is the read that fetched the original. -/
theorem reply_noaddr_fails_before_writes (w : World) (st : ClientState) (sess : JMAPSession)
    (aid : String) (action : ToolAction) (emailId body : String) (cc bcc : Option String)
    (orig : Email)
    (hsess : st.session = some sess)
    (haid : rlookup sess.primaryAccounts "urn:ietf:params:jmap:mail" = some aid)
    (he : (w.emailStore.filter (fun x => x.id == emailId)).head? = some orig)
    (hrt : orig.replyTo.bind List.head? = none)
    (hfr : orig.from_.bind List.head? = none) :
    replyToEmailTool w action emailId body cc bcc st =
      .error "Cannot determine reply address"
        { st with
            postCount := st.postCount + 1
            trace := st.trace ++ [emailGetFullCall aid emailId] }
    ∧ writeCalls (st.trace ++ [emailGetFullCall aid emailId]) = writeCalls st.trace := by
  constructor
  · simp [replyToEmailTool, buildReply, getEmail, JMAPClient.getAccountId,
          JMAPClient.getSession, issueCall, hsess, haid, he, hrt, hfr, Option.orElse]
  · rw [writeCalls_append,
        writeCalls_read_singleton _ (by simp [emailGetFullCall]) (by simp [emailGetFullCall]),
        List.append_nil]

/-- Witness for C8's amended theorem on the concrete address-less
email. -/
theorem reply_noaddr_fails_before_writes_witness :
    replyToEmailTool w8 .confirm "E1" "hi" none none stW =
      .error "Cannot determine reply address"
        { stW with
            postCount := 1
            trace := [emailGetFullCall "acc1" "E1"] }
    ∧ writeCalls ((stW.trace) ++ [emailGetFullCall "acc1" "E1"]) = writeCalls stW.trace := by
  exact reply_noaddr_fails_before_writes w8 stW sessW "acc1" .confirm "E1" "hi" none none
    emailNoAddr rfl rfl rfl rfl rfl

/-- C8 (counterexample): the failure does not occur before any network
call — the trace at the moment of failure already contains the
`Email/get` read that fetched the original. -/
theorem reply_noaddr_read_before_failure :
    errorOf (replyToEmailTool w8 .preview "E1" "hi" none none stW) =
      some "Cannot determine reply address"
    ∧ (stateOf (replyToEmailTool w8 .preview "E1" "hi" none none stW)).trace =
        [emailGetFullCall "acc1" "E1"]
    ∧ ([emailGetFullCall "acc1" "E1"] : List Call) ≠ [] := by
  refine ⟨rfl, rfl, by simp⟩

/-! ## C1: preview/confirm infrastructure -/

/-- The response-inspection tail of `sendEmail` never changes the
client state: every branch returns or throws in place. -/
theorem handleSendResponses_stateOf (rs : List MethodResponse) (st : ClientState) :
    stateOf (handleSendResponses rs st) = st := by
  rcases h : rs.head? with _ | r <;> simp only [handleSendResponses, h]
  · rfl
  · cases h1 : jTruthy (jGet2 r.data "notCreated" "draft")
    case true => simp [stateOf]
    case false =>
      simp only [Bool.false_eq_true, if_false]
      rcases hc : (jGet2 r.data "created" "draft").bind (fun c => jGet c "id") with _ | jv
      · simp [hc, stateOf]
      · rcases jv with s | n | b | _ | l | o <;> simp only [hc]
        case str =>
          by_cases h2 : s = ""
          · simp [h2, stateOf]
          · simp only [h2, if_false, if_neg h2]
            rcases h3 : rs[1]? with _ | sub <;> simp only [h3]
            · rfl
            · cases h4 : jTruthy (jGet2 sub.data "notCreated" "submission") <;>
                simp [h4, stateOf]
        all_goals rfl

/-- Binding a state-preserving continuation does not change the final
state of an operation. -/
theorem stateOf_bind {α β : Type} (x : Op α) (f : α → Op β) (st : ClientState)
    (hf : ∀ a s, stateOf (f a s) = s) :
    stateOf ((x >>= f) st) = stateOf (x st) := by
  rw [Op_bind_apply]
  rcases hx : x st with ⟨a, st'⟩ | ⟨e, st'⟩ <;> simp only [hx]
  · rw [hf a st']; rfl
  · rfl

/-- Whatever the transport answers, `request` leaves the state with
the batch recorded and the POST counted (the session being cached). -/
theorem request_stateOf (w : HttpWorld) (calls : List Call) (st : ClientState)
    (sess : JMAPSession) (hsess : st.session = some sess) :
    stateOf (JMAPClient.request w calls st) =
      { st with postCount := st.postCount + 1, trace := st.trace ++ calls } := by
  simp only [JMAPClient.request, JMAPClient.getSession, hsess]
  rcases hb : w.batchResponse st.postCount with ⟨s, t⟩ | mrs
  · simp [stateOf]
  · rcases hf : mrs.find? (fun r => r.name == "error") with _ | r <;> simp [hf, stateOf]


/-- With a cached session, an account, an identity and both special
mailboxes present, `sendEmail` always records exactly the identity
read, the mailbox read and the two-call create/submit batch, whatever
the transport answers to the batch. -/
theorem sendEmail_stateOf (w : World) (st : ClientState) (sess : JMAPSession)
    (aid : String) (idn : Identity) (idns : List Identity) (dmb smb : Mailbox)
    (params : SendEmailParams)
    (hsess : st.session = some sess)
    (haid : rlookup sess.primaryAccounts "urn:ietf:params:jmap:mail" = some aid)
    (hid : w.identityList = idn :: idns)
    (hdr : w.mailboxList.find? (fun m => m.role == some "drafts") = some dmb)
    (hsn : w.mailboxList.find? (fun m => m.role == some "sent") = some smb) :
    stateOf (sendEmail w params st) =
      { st with
          postCount := st.postCount + 1 + 1 + 1
          trace := st.trace ++ [identityGetCall aid, mailboxGetCall aid,
            sendEmailSetCall aid (emailCreateFor idn dmb.id params),
            sendSubmissionCall aid idn.id smb.id] } := by
  have h : sendEmail w params st =
      (JMAPClient.request w.http
        [sendEmailSetCall aid (emailCreateFor idn dmb.id params),
         sendSubmissionCall aid idn.id smb.id] >>= handleSendResponses)
      { st with
          postCount := st.postCount + 1 + 1
          trace := st.trace ++ [identityGetCall aid] ++ [mailboxGetCall aid] } := by
    simp [sendEmail, getDefaultIdentity, getIdentities, listMailboxes,
      JMAPClient.getAccountId, JMAPClient.getSession, issueCall,
      hsess, haid, hid, hdr, hsn]
  rw [h, stateOf_bind _ _ _ handleSendResponses_stateOf,
      request_stateOf _ _ _ sess (by simp [hsess])]
  simp [List.append_assoc]

/-- The draft object `sendEmail` creates carries exactly the
to/cc/bcc/subject/body of the parameters it was handed: the fields a
preview renders are the fields a confirm submits. -/
theorem emailCreateFor_payload_fields (idn : Identity) (did : String) (p : SendEmailParams) :
    jGet (jvalOfEmailCreate (emailCreateFor idn did p)) "to" = some (jvalOfAddressList p.to_)
    ∧ jGet (jvalOfEmailCreate (emailCreateFor idn did p)) "subject" = some (.str p.subject)
    ∧ jGet2 (jvalOfEmailCreate (emailCreateFor idn did p)) "bodyValues" "body" =
        some (.obj [("value", .str p.textBody)])
    ∧ (∀ ca, p.cc = some ca →
        jGet (jvalOfEmailCreate (emailCreateFor idn did p)) "cc" = some (jvalOfAddressList ca))
    ∧ (∀ ba, p.bcc = some ba →
        jGet (jvalOfEmailCreate (emailCreateFor idn did p)) "bcc" = some (jvalOfAddressList ba)) := by
  rcases hrt : optTruthy p.inReplyTo with _ | r <;>
  rcases href : p.references with _ | rs <;>
  rcases hcc : p.cc with _ | ca <;>
  rcases hbcc : p.bcc with _ | ba <;>
    simp [emailCreateFor, jvalOfEmailCreate, jGet, jGet2, rlookup, hrt, href, hcc, hbcc]


/-! ## C1: the preview/confirm gate -/

/-- C1: a `send_email` invocation with `action = preview` changes no
state at all (in particular it issues no `Email/set` or
`EmailSubmission/set` call) and renders exactly the to/cc/bcc/subject/
body values that the `action = confirm` invocation with the same
arguments hands to `sendEmail`; the confirm invocation's batch then
creates a draft built by `emailCreateFor` from those very values (see
`emailCreateFor_payload_fields` for the field-by-field payload).
Likewise `reply_to_email` with `action = preview` performs only the
read fetching the original (no write calls) and renders the
to/cc/bcc/subject/body of the exact parameters the confirm invocation
submits. -/
theorem preview_renders_confirm_payload
    (w : World) (st : ClientState) (sess : JMAPSession) (aid : String)
    (to_ subject body : String) (cc bcc : Option String)
    (idn : Identity) (idns : List Identity) (dmb smb : Mailbox)
    (emailId rbody : String) (rcc rbcc : Option String)
    (orig : Email) (a : EmailAddress)
    (hsess : st.session = some sess)
    (haid : rlookup sess.primaryAccounts "urn:ietf:params:jmap:mail" = some aid)
    (hid : w.identityList = idn :: idns)
    (hdr : w.mailboxList.find? (fun m => m.role == some "drafts") = some dmb)
    (hsn : w.mailboxList.find? (fun m => m.role == some "sent") = some smb)
    (he : (w.emailStore.filter (fun x => x.id == emailId)).head? = some orig)
    (haddr : (orig.replyTo.bind List.head?).orElse (fun _ => orig.from_.bind List.head?) = some a) :
    sendEmailTool w .preview to_ subject body cc bcc st =
      .ok (sendPreviewText (formatAddressList (some (parseAddresses to_)))
            (addrOptRender ((optTruthy cc).map parseAddresses))
            (addrOptRender ((optTruthy bcc).map parseAddresses)) subject body) st
    ∧ (stateOf (sendEmailTool w .confirm to_ subject body cc bcc st)).trace =
        st.trace ++ [identityGetCall aid, mailboxGetCall aid,
          sendEmailSetCall aid (emailCreateFor idn dmb.id
            { to_ := parseAddresses to_
              subject := subject
              textBody := body
              cc := (optTruthy cc).map parseAddresses
              bcc := (optTruthy bcc).map parseAddresses }),
          sendSubmissionCall aid idn.id smb.id]
    ∧ replyToEmailTool w .preview emailId rbody rcc rbcc st =
      .ok (replyPreviewText
            (formatAddressList (some (applyCcBcc (replyParamsFor orig a rbody) rcc rbcc).to_))
            (addrOptRender (applyCcBcc (replyParamsFor orig a rbody) rcc rbcc).cc)
            (addrOptRender (applyCcBcc (replyParamsFor orig a rbody) rcc rbcc).bcc)
            (applyCcBcc (replyParamsFor orig a rbody) rcc rbcc).subject
            (match optTruthy (applyCcBcc (replyParamsFor orig a rbody) rcc rbcc).inReplyTo with
             | some s => s
             | none => "(none)")
            rbody)
        { st with
            postCount := st.postCount + 1
            trace := st.trace ++ [emailGetFullCall aid emailId] }
    ∧ writeCalls (st.trace ++ [emailGetFullCall aid emailId]) = writeCalls st.trace
    ∧ (stateOf (replyToEmailTool w .confirm emailId rbody rcc rbcc st)).trace =
        st.trace ++ [emailGetFullCall aid emailId, identityGetCall aid, mailboxGetCall aid,
          sendEmailSetCall aid (emailCreateFor idn dmb.id
            (applyCcBcc (replyParamsFor orig a rbody) rcc rbcc)),
          sendSubmissionCall aid idn.id smb.id]
    ∧ (applyCcBcc (replyParamsFor orig a rbody) rcc rbcc).textBody = rbody
    ∧ (∀ (p : SendEmailParams) (did : String),
        jGet (jvalOfEmailCreate (emailCreateFor idn did p)) "to" =
          some (jvalOfAddressList p.to_)
        ∧ jGet (jvalOfEmailCreate (emailCreateFor idn did p)) "subject" =
          some (.str p.subject)
        ∧ jGet2 (jvalOfEmailCreate (emailCreateFor idn did p)) "bodyValues" "body" =
          some (.obj [("value", .str p.textBody)])
        ∧ (∀ ca, p.cc = some ca →
            jGet (jvalOfEmailCreate (emailCreateFor idn did p)) "cc" =
              some (jvalOfAddressList ca))
        ∧ (∀ ba, p.bcc = some ba →
            jGet (jvalOfEmailCreate (emailCreateFor idn did p)) "bcc" =
              some (jvalOfAddressList ba))) := by
  have hb : buildReply w emailId rbody st =
      .ok (replyParamsFor orig a rbody)
        { st with
            postCount := st.postCount + 1
            trace := st.trace ++ [emailGetFullCall aid emailId] } := by
    simp [buildReply, getEmail, JMAPClient.getAccountId, JMAPClient.getSession,
          issueCall, hsess, haid, he, haddr]
  refine ⟨rfl, ?_, ?_, ?_, ?_, ?_, fun p did => emailCreateFor_payload_fields idn did p⟩
  · have hconf : sendEmailTool w .confirm to_ subject body cc bcc st =
        (sendEmail w
          { to_ := parseAddresses to_
            subject := subject
            textBody := body
            cc := (optTruthy cc).map parseAddresses
            bcc := (optTruthy bcc).map parseAddresses } >>=
          fun emailId2 => pure (sendSentText (formatAddressList (some (parseAddresses to_)))
            subject emailId2)) st := rfl
    rw [hconf,
        stateOf_bind _ (fun emailId2 => pure (sendSentText
          (formatAddressList (some (parseAddresses to_))) subject emailId2)) _
          (fun a2 s => rfl),
        sendEmail_stateOf w st sess aid idn idns dmb smb _ hsess haid hid hdr hsn]
  · simp only [replyToEmailTool, Op_bind_apply, hb, Op_pure_apply]
  · rw [writeCalls_append,
        writeCalls_read_singleton _ (by simp [emailGetFullCall]) (by simp [emailGetFullCall]),
        List.append_nil]
  · have hrt2 : replyToEmailTool w .confirm emailId rbody rcc rbcc st =
        (sendEmail w (applyCcBcc (replyParamsFor orig a rbody) rcc rbcc) >>=
          fun emailId2 => pure (replySentText
            (formatAddressList (some (applyCcBcc (replyParamsFor orig a rbody) rcc rbcc).to_))
            (applyCcBcc (replyParamsFor orig a rbody) rcc rbcc).subject emailId2))
        { st with
            postCount := st.postCount + 1
            trace := st.trace ++ [emailGetFullCall aid emailId] } := by
      simp only [replyToEmailTool, Op_bind_apply, hb]
    rw [hrt2,
        stateOf_bind _ (fun emailId2 => pure (replySentText
          (formatAddressList (some (applyCcBcc (replyParamsFor orig a rbody) rcc rbcc).to_))
          (applyCcBcc (replyParamsFor orig a rbody) rcc rbcc).subject emailId2)) _
          (fun a2 s => rfl),
        sendEmail_stateOf w _ sess aid idn idns dmb smb _ (by simp [hsess]) haid hid hdr hsn]
    simp [List.append_assoc]
  · rcases h1 : optTruthy rcc with _ | c <;> rcases h2 : optTruthy rbcc with _ | b <;>
      simp [applyCcBcc, replyParamsFor, h1, h2]

/-- Witness for C1: the concrete confirm trace contains the draft
payload built from the very values the preview rendered. -/
theorem preview_renders_confirm_payload_witness :
    sendEmailTool wC1 .preview "bob@x.com" "Hi" "Yo" none none stW =
      .ok (sendPreviewText (formatAddressList (some (parseAddresses "bob@x.com")))
            (addrOptRender none) (addrOptRender none) "Hi" "Yo") stW
    ∧ (stateOf (sendEmailTool wC1 .confirm "bob@x.com" "Hi" "Yo" none none stW)).trace =
        [identityGetCall "acc1", mailboxGetCall "acc1",
         sendEmailSetCall "acc1" (emailCreateFor idnW "MB3"
           { to_ := parseAddresses "bob@x.com"
             subject := "Hi"
             textBody := "Yo" }),
         sendSubmissionCall "acc1" "ID1" "MB4"] := by
  have h := preview_renders_confirm_payload wC1 stW sessW "acc1" "bob@x.com" "Hi" "Yo"
    none none idnW [] mbDrafts mbSent "E1" "Thanks" none none emailOrig
    ⟨some "Alice", "alice@example.com"⟩ rfl rfl rfl rfl rfl rfl rfl
  exact ⟨h.1, h.2.1⟩
